import Mathlib

/-!
# Verification of the competitor-research orchestration (src/utils.py)

Shallow embedding of the pure data-manipulation core of the repository:
JSON values are modelled by `JVal`, Python dicts produced by `json.loads`
by ordered association lists (`Rec`), and each source function by a Lean
function over these.  External effects (the LLM call, the clock, `uuid4`,
file writes) enter as explicit parameters / oracles, exactly where the
Python code consumes their results.
-/

namespace CompeteAutomate

/-- A parsed JSON value, as produced by Python's `json.loads`:
`null`, booleans, numbers (modelled as integers; no claim depends on the
fractional part), strings, arrays, and objects (ordered key/value lists,
mirroring Python dict insertion order). -/
inductive JVal where
  | null : JVal
  | bool (b : Bool) : JVal
  | num (n : Int) : JVal
  | str (s : String) : JVal
  | arr (xs : List JVal) : JVal
  | obj (fields : List (String × JVal)) : JVal
deriving Repr

/-- A parsed JSON object: a Python dict as an ordered association list. -/
abbrev Rec := List (String × JVal)

/-- Python `d.get(k)` / `d[k]`: first binding of `k`, if any. -/
def dget : Rec → String → Option JVal
  | [], _ => none
  | (k', v) :: rest, k => if k' = k then some v else dget rest k

/-- Python `d[k] = v` on a dict: replace the binding in place if the key
is present, else append a new binding (insertion order). -/
def dset : Rec → String → JVal → Rec
  | [], k, v => [(k, v)]
  | (k', v') :: rest, k, v =>
      if k' = k then (k, v) :: rest else (k', v') :: dset rest k v

/-- Python `k in d`. -/
def hasKey (r : Rec) (k : String) : Bool :=
  (dget r k).isSome

/-- Python truthiness of a parsed JSON value (`bool(v)`). -/
def jTruthy : JVal → Bool
  | .null => false
  | .bool b => b
  | .num n => n != 0
  | .str s => s != ""
  | .arr xs => !xs.isEmpty
  | .obj fs => !fs.isEmpty

/-- Python `d.get(k)` where a stored JSON `null` is Python `None`:
`json.loads` maps `null` to `None`, so a key bound to `null` and an
absent key are indistinguishable to `is None` checks. -/
def pyGet (r : Rec) (k : String) : Option JVal :=
  match dget r k with
  | some .null => none
  | o => o

/-- Python `str(v)` for a parsed JSON value.  Exact for the scalar cases
the code relies on (`str`, `int`, `bool`, `None`); containers get a
canonical rendering (Python's `repr` spelling is not load-bearing for
any claim, which only inspect scalar conversions). -/
def pyStr : JVal → String
  | .null => "None"
  | .bool true => "True"
  | .bool false => "False"
  | .num n => toString n
  | .str s => s
  | .arr _ => "[...]"
  | .obj _ => "{...}"

/-- `utils.py` lines 174-176: the `Type` value is kept only when it is a
string member of `COMPETITOR_TYPES` (Python `in` over a list of strings
can only match a string). -/
def typeOk (types : List String) : Option JVal → Bool
  | some (.str s) => types.contains s
  | _ => false

/-- `utils.py` lines 184-188: a `Research_Sources` entry is kept when it
is a dict carrying both a `url` and a `description` key. -/
def validSource : JVal → Bool
  | .obj fs => hasKey fs "url" && hasKey fs "description"
  | _ => false

/-- `utils.py` lines 169-171: `json_data["CompetitorID"] = competitor_id`,
`json_data["DateAdded"] = current_date`,
`json_data["LastUpdated"] = current_date`. -/
def injectSystemFields (cid date : String) (jd : Rec) : Rec :=
  dset (dset (dset jd "CompetitorID" (.str cid)) "DateAdded" (.str date))
    "LastUpdated" (.str date)

/-- `utils.py` lines 174-176: replace an unrecognized `Type` with the
`"N/A"` sentinel. -/
def validateType (types : List String) (jd : Rec) : Rec :=
  if typeOk types (dget jd "Type") then jd else dset jd "Type" (.str "N/A")

/-- `utils.py` lines 179-188: coerce `Research_Sources` to a list of
valid source dicts (a missing key defaults to `[]`, a non-list value
becomes `[]`, list entries lacking `url` or `description` are dropped). -/
def validateSources (jd : Rec) : Rec :=
  match (dget jd "Research_Sources").getD (.arr []) with
  | .arr xs => dset jd "Research_Sources" (.arr (xs.filter validSource))
  | _ => dset jd "Research_Sources" (.arr [])

/-- `utils.py` lines 168-188, the normalization applied to a parsed
model response inside `research_competitor_to_json`, in statement
order.  `cid` stands for the `uuid.uuid4()` generated at call entry,
`date` for `datetime.now().strftime("%Y-%m-%d")`. -/
def normalize_record (types : List String) (cid date : String) (jd : Rec) : Rec :=
  validateSources (validateType types (injectSystemFields cid date jd))

/-! ## Per-entity research task (`research_competitor_to_json`, utils.py 48-218) -/

/-- The observable outcome of one attempt of the retry loop, i.e. of the
`try:` body up to `json.loads`:
* `ok jd` — the model call returned text whose cleaned form parses as a
  JSON object `jd` (a parse to a non-object would make the subsequent
  item assignment raise, which is the `exn` case);
* `badJson raw` — `json.loads` raised `JSONDecodeError` on text `raw`;
* `exn msg` — any other exception (transport/provider failure, etc.),
  caught by the broad `except Exception` handler. -/
inductive Outcome where
  | ok (jd : Rec) : Outcome
  | badJson (raw : String) : Outcome
  | exn (msg : String) : Outcome
deriving Repr

/-- Result of `research_competitor_to_json`, with its file side effects:
* `success path written` — returned `path` after writing `written`;
* `jsonErrorDump file raw` — returned `None` after writing `raw` to the
  `.error.txt` diagnostic `file` (retries exhausted on parse failures);
* `fatalDump file` — returned `None` after writing the `.fatal.txt`
  diagnostic `file` (retries exhausted, last failure not a parse error);
* `noResult` — returned `None` from the fall-through after the loop
  (utils.py line 218; unreachable for the 3-attempt loop). -/
inductive ResearchResult where
  | success (path : String) (written : Rec) : ResearchResult
  | jsonErrorDump (file : String) (raw : String) : ResearchResult
  | fatalDump (file : String) : ResearchResult
  | noResult : ResearchResult
deriving Repr

/-- utils.py line 63: `competitor_name.replace(' ', '_').replace('/', '_')`. -/
def sanitizeName (name : String) : String :=
  String.map (fun c => if c = ' ' || c = '/' then '_' else c) name

/-- utils.py line 63: the output file path for a competitor. -/
def outputFilePath (output_folder competitor_name : String) : String :=
  output_folder ++ "/" ++ sanitizeName competitor_name ++ ".json"

/-- utils.py line 143: `max_retries = 3`. -/
def max_retries : Nat := 3

/-- The body of `for attempt in range(max_retries)` (utils.py 145-217),
run over the remaining attempt indices; the empty case is the
`return None` after the loop (line 218).  `outcomes` is the oracle
giving each attempt's model-call outcome. -/
def runAttempts (types : List String) (cid date path : String)
    (outcomes : Nat → Outcome) : List Nat → ResearchResult
  | [] => .noResult
  | attempt :: rest =>
    match outcomes attempt with
    | .ok jd => .success path (normalize_record types cid date jd)
    | .badJson raw =>
        if attempt = max_retries - 1 then .jsonErrorDump (path ++ ".error.txt") raw
        else runAttempts types cid date path outcomes rest
    | .exn _ =>
        if attempt = max_retries - 1 then .fatalDump (path ++ ".fatal.txt")
        else runAttempts types cid date path outcomes rest

/-- `research_competitor_to_json` (utils.py 48-218), as a function of the
per-attempt outcome oracle.  `cid` and `date` are the `uuid.uuid4()` and
`datetime.now()` date sampled once before the loop (lines 67-68). -/
def research_competitor_to_json (types : List String) (cid date : String)
    (output_folder competitor_name : String) (outcomes : Nat → Outcome) :
    ResearchResult :=
  runAttempts types cid date (outputFilePath output_folder competitor_name)
    outcomes (List.range max_retries)

/-- The `None`-vs-path return value of `research_competitor_to_json`. -/
def ResearchResult.returnValue : ResearchResult → Option String
  | .success path _ => some path
  | _ => none

/-! ## Fan-out scheduler (`research_competitors_async`, utils.py 220-247) -/

/-- `research_competitors_async`: launches one research task per name and
gathers their return values (`asyncio.gather` preserves task slots), then
keeps the non-`None` paths.  `outcome` gives each task's return value. -/
def research_competitors_async (competitors_list : List String)
    (outcome : String → Option String) : List String :=
  (competitors_list.map outcome).filterMap id

/-! ## Update pipeline (`update_single_competitor_async`, utils.py 620-703) -/

/-- The per-response processing of one attempt of
`update_single_competitor_async` (utils.py 683-695): given the parsed
model response, extract `updated_competitor_data` and `change_summary`;
a missing or falsy value for either raises `ValueError` (caught: `none`);
a non-dict `updated_competitor_data` makes the `["LastUpdated"]`
assignment raise (caught: `none`); otherwise overwrite `LastUpdated`
with today's date and return the record to persist with the summary. -/
def update_single_attempt (parsed : JVal) (today : String) :
    Option (Rec × JVal) :=
  match parsed with
  | .obj fields =>
    match pyGet fields "updated_competitor_data", pyGet fields "change_summary" with
    | some ud, some cs =>
      if jTruthy ud && jTruthy cs then
        match ud with
        | .obj ufields => some (dset ufields "LastUpdated" (.str today), cs)
        | _ => none
      else none
    | _, _ => none
  | _ => none

/-! ## Discovery (`discover_new_competitors_async`, utils.py 882-951) -/

/-- The response processing of `discover_new_competitors_async`
(utils.py 939-947): `existing_competitors` is interpolated into the
prompt only (line 919) — the code applies no filtering to the model's
answer.  A non-object response makes `.get` raise (caught: `[]`); a
missing or non-list `new_competitors` yields `[]`; a list is returned
as-is. -/
def discover_new_competitors_async (existing_competitors : List String)
    (parsed : JVal) : List JVal :=
  let _ := existing_competitors
  match parsed with
  | .obj fields =>
    match (dget fields "new_competitors").getD (.arr []) with
    | .arr xs => xs
    | _ => []
  | _ => []

/-! ## Source dedup (`dedupe_sources_preserve_order`, utils.py 854-864) -/

mutual
/-- Python `==` on parsed JSON values (used by `url not in seen`). -/
def beqJVal : JVal → JVal → Bool
  | .null, .null => true
  | .bool a, .bool b => a == b
  | .num a, .num b => a == b
  | .str a, .str b => a == b
  | .arr xs, .arr ys => beqJValList xs ys
  | .obj xs, .obj ys => beqJValFields xs ys
  | _, _ => false

def beqJValList : List JVal → List JVal → Bool
  | [], [] => true
  | x :: xs, y :: ys => beqJVal x y && beqJValList xs ys
  | _, _ => false

def beqJValFields : List (String × JVal) → List (String × JVal) → Bool
  | [], [] => true
  | (k, v) :: xs, (l, w) :: ys => k == l && beqJVal v w && beqJValFields xs ys
  | _, _ => false
end

/-- The loop of `dedupe_sources_preserve_order`: `seen` is the set of
urls already kept (membership via Python `==`).  A non-dict entry, a
missing url, a falsy url, or an already-seen url is dropped; otherwise
the entry is kept and its url recorded. -/
def dedupeAux : List JVal → List JVal → List JVal
  | _, [] => []
  | seen, src :: rest =>
    match src with
    | .obj fs =>
      match dget fs "url" with
      | some url =>
        if jTruthy url && !(seen.any (fun s => beqJVal url s)) then
          src :: dedupeAux (url :: seen) rest
        else dedupeAux seen rest
      | none => dedupeAux seen rest
    | _ => dedupeAux seen rest

/-- `dedupe_sources_preserve_order` (utils.py 854-864). -/
def dedupe_sources_preserve_order (sources : List JVal) : List JVal :=
  dedupeAux [] sources

/-! ## Mapping to Notion properties (`map_data_to_notion_properties`,
utils.py 254-372) -/

/-- A Notion typed value wrapper, one per wrapper shape the code emits. -/
inductive NProp where
  | title (content : String) : NProp
  | url (u : Option String) : NProp
  | select (v : Option String) : NProp
  | date (d : Option String) : NProp
  | number (n : Option Int) : NProp
  | richText (chunks : List String) : NProp
deriving Repr, DecidableEq

/-- utils.py line 252. -/
def TITLE_FIELD_NAME : String := "Competitor Name"

/-- The fields handled by the `date` branches (utils.py 273, 326). -/
def dateFields : List String := ["DateAdded", "LastUpdated"]

/-- The fields handled by the `number` branches (utils.py 275-277,
334-336). -/
def numberFields : List String :=
  ["CompanySize_Employees", "YearFounded", "Pricing_LowestPaidTier_USD",
   "Pricing_KeyTier_USD", "Funding_Total_USD", "Total_Reviews_Count",
   "Average_Rating_Overall"]

/-- Python `value == "N/A"`: only a string compares equal to `"N/A"`. -/
def isNA : JVal → Bool
  | .str s => s == "N/A"
  | _ => false

/-- utils.py line 285: `isinstance(value, str) and
(value.startswith("http://") or value.startswith("https://"))`. -/
def isHttpString : JVal → Bool
  | .str s => s.startsWith "http://" || s.startsWith "https://"
  | _ => false

/-- utils.py line 339: `str(value).replace("$", "").replace(",", "")`. -/
def stripMoneyChars (s : String) : String :=
  String.mk (s.data.filter (fun c => c != '$' && c != ','))

/-- The slicing loop `for i in range(0, len(content_string), 2000)`
(utils.py 349-351 and 363-365), over the text's characters (Python
string indexing is by code point). -/
def chunksOf2000 : List Char → List (List Char)
  | [] => []
  | c :: cs => ((c :: cs).take 2000) :: chunksOf2000 ((c :: cs).drop 2000)
termination_by l => l.length
decreasing_by simp [List.length_drop]; omega

/-- The rich-text payload built from a text value (utils.py 357-370):
the 2000-sized chunks, or a single empty text block when there are none
(`if not rich_text_payload`). -/
def textChunks (content : String) : List String :=
  let payload := (chunksOf2000 content.data).map (fun l => String.mk l)
  if payload.isEmpty then [""] else payload

/-- utils.py line 302: the formatted line for the `i`-th source,
`f"{i}. [{source['description']}]({source['url']})\n"` (both values are
present by the guard on line 300). -/
def sourceLine (i : Nat) (fs : Rec) : String :=
  toString i ++ ". [" ++ pyStr ((dget fs "description").getD .null) ++ "](" ++
    pyStr ((dget fs "url").getD .null) ++ ")\n"

/-- The greedy accumulation of source lines into at-most-2000-character
chunks (utils.py 297-318): `i` is the 1-based `enumerate` index
(advanced on every entry, valid or not), `current` the chunk being
filled.  A line that would overflow the current chunk flushes it and
starts a new one; a line longer than 2000 becomes its own oversized
chunk ("truncated by Notion", per the code comment). -/
def sourcesChunksAux : Nat → String → List JVal → List String
  | _, current, [] => if current.isEmpty then [] else [current]
  | i, current, src :: rest =>
    match src with
    | .obj fs =>
      if hasKey fs "url" && hasKey fs "description" then
        let line := sourceLine i fs
        if current.length + line.length > 2000 then
          if current.isEmpty then sourcesChunksAux (i + 1) line rest
          else current :: sourcesChunksAux (i + 1) line rest
        else sourcesChunksAux (i + 1) (current ++ line) rest
      else sourcesChunksAux (i + 1) current rest
    | _ => sourcesChunksAux (i + 1) current rest

/-- The `Research_Sources` rich-text payload (utils.py 296-318). -/
def sourcesChunks (xs : List JVal) : List String :=
  sourcesChunksAux 1 "" xs

/-- One iteration of the `for field in CSV_SCHEMA` loop of
`map_data_to_notion_properties` when the value is absent, Python `None`
(JSON `null`), or the string `"N/A"` (utils.py 266-281). -/
def emptyProp (field : String) : NProp :=
  if field = TITLE_FIELD_NAME then .title "Untitled Competitor"
  else if field = "WebsiteURL" then .url none
  else if field = "Type" then .select none
  else if dateFields.contains field then .date none
  else if numberFields.contains field then .number none
  else .richText [""]

/-- One iteration of the `for field in CSV_SCHEMA` loop of
`map_data_to_notion_properties` (utils.py 260-370).  `parseDate`
abstracts `datetime.strptime(·, "%Y-%m-%d")` followed by `strftime`
(`none` on `except`); `parseNum` abstracts `float(·)` (`none` on
`except`; the float value itself is abstracted to an integer, no claim
inspects it).  `types` is the global `COMPETITOR_TYPES`. -/
def mapField (parseDate : String → Option String) (parseNum : String → Option Int)
    (types : List String) (competitor_data : Rec) (field : String) : NProp :=
  let value0 := pyGet competitor_data field
  let value := if field = "CompetitorID" then
      value0.map (fun v => JVal.str (pyStr v)) else value0
  match value with
  | none => emptyProp field
  | some v =>
    if isNA v then emptyProp field
    else if field = TITLE_FIELD_NAME then .title (pyStr v)
    else if field = "WebsiteURL" || isHttpString v then
      .url (if jTruthy v then some (pyStr v) else none)
    else if field = "Type" then
      (match v with
       | .str s => if types.contains s then .select (some s) else .select none
       | _ => .select none)
    else if field = "Research_Sources" then
      (match v with
       | .arr xs => if !xs.isEmpty then .richText (sourcesChunks xs)
                    else .richText [""]
       | _ => .richText [""])
    else if dateFields.contains field then .date (parseDate (pyStr v))
    else if numberFields.contains field then
      .number (parseNum (stripMoneyChars (pyStr v)))
    else
      (match v with
       | .arr xs =>
         .richText (textChunks (String.intercalate "\n"
           (xs.map (fun item => "• " ++ pyStr item))))
       | _ => .richText (textChunks (pyStr v)))

/-- `map_data_to_notion_properties` (utils.py 254-372): one property per
schema field, in schema order.  `schema` is the global `CSV_SCHEMA`. -/
def map_data_to_notion_properties (parseDate : String → Option String)
    (parseNum : String → Option Int) (schema types : List String)
    (competitor_data : Rec) : List (String × NProp) :=
  schema.map (fun field =>
    (field, mapField parseDate parseNum types competitor_data field))

/-- Modelled from the spec: the default `CSV_SCHEMA` field list is
defined in a part of the repository not present under `src/`
(`utils.py` uses it before any definition in the provided file).  The
spec (§3, §6) and the code's special-cased branches name at least the
fields below; the exact remaining free-text fields do not affect any
claim. -/
def CSV_SCHEMA : List String :=
  ["Competitor Name", "CompetitorID", "WebsiteURL", "Type", "Debrief",
   "CompanySize_Employees", "YearFounded", "Pricing_LowestPaidTier_USD",
   "Pricing_KeyTier_USD", "Funding_Total_USD", "Total_Reviews_Count",
   "Average_Rating_Overall", "Research_Sources", "DateAdded", "LastUpdated"]

/-- The keys of a record, in order. -/
def keys (r : Rec) : List String := r.map Prod.fst

/-- The five fields `research_competitor_to_json` always writes into the
parsed record (utils.py 169-171, 176, 181/188). -/
def injectedFields : List String :=
  ["CompetitorID", "DateAdded", "LastUpdated", "Type", "Research_Sources"]

/-- Claim-side definition, following the claim's words only (for
comparison with the code's behaviour): a typed value wrapper is
"empty/None" when it carries no content. -/
def isEmptyWrapper : NProp → Bool
  | .title c => c == ""
  | .url o => o.isNone
  | .select o => o.isNone
  | .date o => o.isNone
  | .number o => o.isNone
  | .richText ch => ch == [""] || ch == []

/-! ## Association-list lemmas -/

theorem dget_dset_self (r : Rec) (k : String) (v : JVal) :
    dget (dset r k v) k = some v := by
  induction r with
  | nil => simp [dset, dget]
  | cons p rest ih =>
    obtain ⟨k', v'⟩ := p
    by_cases h : k' = k
    · simp [dset, h, dget]
    · simp [dset, h, dget, ih]

theorem dget_dset_ne (r : Rec) (k k' : String) (v : JVal) (h : k' ≠ k) :
    dget (dset r k' v) k = dget r k := by
  induction r with
  | nil => simp [dset, dget, h]
  | cons p rest ih =>
    obtain ⟨k'', v''⟩ := p
    by_cases h2 : k'' = k'
    · simp [dset, h2, dget, h]
    · simp [dset, h2, dget, ih]

theorem mem_keys_iff_dget (r : Rec) (k : String) :
    k ∈ keys r ↔ (dget r k).isSome := by
  induction r with
  | nil => simp [keys, dget]
  | cons p rest ih =>
    obtain ⟨k', v'⟩ := p
    by_cases h : k' = k
    · simp [keys, dget, h]
    · simp [keys, dget, h, Ne.symm h, ← ih]

theorem mem_keys_dset (r : Rec) (k a : String) (v : JVal) :
    a ∈ keys (dset r k v) ↔ a = k ∨ a ∈ keys r := by
  by_cases h : k = a
  · subst h
    simp [mem_keys_iff_dget, dget_dset_self]
  · rw [mem_keys_iff_dget, dget_dset_ne r a k v h, ← mem_keys_iff_dget]
    constructor
    · exact Or.inr
    · rintro (rfl | hm)
      · exact absurd rfl h
      · exact hm

/-! ## Normalization lemmas -/

theorem dget_validateSources_ne (jd : Rec) (k : String)
    (h : k ≠ "Research_Sources") :
    dget (validateSources jd) k = dget jd k := by
  unfold validateSources
  split <;> exact dget_dset_ne jd k "Research_Sources" _ (Ne.symm h)

theorem dget_validateType_ne (types : List String) (jd : Rec) (k : String)
    (h : k ≠ "Type") :
    dget (validateType types jd) k = dget jd k := by
  unfold validateType
  split
  · rfl
  · exact dget_dset_ne jd k "Type" _ (Ne.symm h)

theorem dget_injectSystemFields_CompetitorID (cid date : String) (jd : Rec) :
    dget (injectSystemFields cid date jd) "CompetitorID" = some (.str cid) := by
  unfold injectSystemFields
  rw [dget_dset_ne _ _ _ _ (by decide : ("LastUpdated" : String) ≠ "CompetitorID"),
    dget_dset_ne _ _ _ _ (by decide : ("DateAdded" : String) ≠ "CompetitorID"),
    dget_dset_self]

theorem dget_injectSystemFields_DateAdded (cid date : String) (jd : Rec) :
    dget (injectSystemFields cid date jd) "DateAdded" = some (.str date) := by
  unfold injectSystemFields
  rw [dget_dset_ne _ _ _ _ (by decide : ("LastUpdated" : String) ≠ "DateAdded"),
    dget_dset_self]

theorem dget_injectSystemFields_LastUpdated (cid date : String) (jd : Rec) :
    dget (injectSystemFields cid date jd) "LastUpdated" = some (.str date) := by
  unfold injectSystemFields
  rw [dget_dset_self]

theorem mem_keys_injectSystemFields (cid date : String) (jd : Rec) (a : String) :
    a ∈ keys (injectSystemFields cid date jd) ↔
      a = "LastUpdated" ∨ a = "DateAdded" ∨ a = "CompetitorID" ∨ a ∈ keys jd := by
  unfold injectSystemFields
  simp [mem_keys_dset, or_assoc]

theorem mem_keys_validateType (types : List String) (jd : Rec) (a : String) :
    a ∈ keys (validateType types jd) ↔ a = "Type" ∨ a ∈ keys jd := by
  unfold validateType
  split
  · rename_i h
    constructor
    · exact Or.inr
    · rintro (rfl | hm)
      · rw [mem_keys_iff_dget]
        cases ho : dget jd "Type" with
        | none => rw [ho] at h; simp [typeOk] at h
        | some v => simp
      · exact hm
  · exact mem_keys_dset jd "Type" a _

theorem mem_keys_validateSources (jd : Rec) (a : String) :
    a ∈ keys (validateSources jd) ↔ a = "Research_Sources" ∨ a ∈ keys jd := by
  unfold validateSources
  split <;> exact mem_keys_dset jd "Research_Sources" a _

theorem mem_keys_normalize_record (types : List String) (cid date : String)
    (jd : Rec) (a : String) :
    a ∈ keys (normalize_record types cid date jd) ↔
      a ∈ keys jd ∨ a ∈ injectedFields := by
  unfold normalize_record
  rw [mem_keys_validateSources, mem_keys_validateType, mem_keys_injectSystemFields]
  simp only [injectedFields, List.mem_cons, List.not_mem_nil, or_false]
  tauto

/-- The three system fields of a normalized record, whatever the model
supplied for them. -/
theorem dget_normalize_record_system (types : List String) (cid date : String)
    (jd : Rec) :
    dget (normalize_record types cid date jd) "CompetitorID" = some (.str cid) ∧
    dget (normalize_record types cid date jd) "DateAdded" = some (.str date) ∧
    dget (normalize_record types cid date jd) "LastUpdated" = some (.str date) := by
  unfold normalize_record
  refine ⟨?_, ?_, ?_⟩ <;>
    rw [dget_validateSources_ne _ _ (by decide), dget_validateType_ne _ _ _ (by decide)]
  · exact dget_injectSystemFields_CompetitorID cid date jd
  · exact dget_injectSystemFields_DateAdded cid date jd
  · exact dget_injectSystemFields_LastUpdated cid date jd

/-- An unrecognized (or absent, null, stale) `Type` is replaced by the
`"N/A"` sentinel. -/
theorem dget_normalize_record_Type (types : List String) (cid date : String)
    (jd : Rec) (h : typeOk types (dget jd "Type") = false) :
    dget (normalize_record types cid date jd) "Type" = some (.str "N/A") := by
  unfold normalize_record
  rw [dget_validateSources_ne _ _ (by decide)]
  have hj : dget (injectSystemFields cid date jd) "Type" = dget jd "Type" := by
    unfold injectSystemFields
    rw [dget_dset_ne _ _ _ _ (by decide : ("LastUpdated" : String) ≠ "Type"),
      dget_dset_ne _ _ _ _ (by decide : ("DateAdded" : String) ≠ "Type"),
      dget_dset_ne _ _ _ _ (by decide : ("CompetitorID" : String) ≠ "Type")]
  unfold validateType
  rw [hj, h]
  simp [dget_dset_self]

/-- A `success` result of the retry loop always carries a normalized
record (inversion of `runAttempts`). -/
theorem runAttempts_success (types : List String) (cid date path : String)
    (outcomes : Nat → Outcome) (l : List Nat) (p : String) (w : Rec)
    (h : runAttempts types cid date path outcomes l = .success p w) :
    p = path ∧ ∃ jd, w = normalize_record types cid date jd := by
  induction l with
  | nil => exact ResearchResult.noConfusion h
  | cons a rest ih =>
    cases ho : outcomes a with
    | ok jd =>
      simp only [runAttempts, ho] at h
      injection h with h1 h2
      exact ⟨h1.symm, jd, h2.symm⟩
    | badJson raw =>
      simp only [runAttempts, ho] at h
      by_cases ha : a = max_retries - 1
      · rw [if_pos ha] at h; exact ResearchResult.noConfusion h
      · rw [if_neg ha] at h; exact ih h
    | exn m =>
      simp only [runAttempts, ho] at h
      by_cases ha : a = max_retries - 1
      · rw [if_pos ha] at h; exact ResearchResult.noConfusion h
      · rw [if_neg ha] at h; exact ih h

/-! ## Scheduler lemmas -/

theorem filterMap_id_length {α : Type} (l : List (Option α)) :
    (l.filterMap id).length = l.length - l.countP Option.isNone := by
  induction l with
  | nil => rfl
  | cons o rest ih =>
    have hle : rest.countP Option.isNone ≤ rest.length := List.countP_le_length _
    cases o with
    | none => simp [List.countP_cons, ih]
    | some a => simp [List.countP_cons, ih]; omega

/-- The retry loop's result depends only on the outcomes of the
attempts it runs. -/
theorem runAttempts_congr (types : List String) (cid date path : String)
    (o o' : Nat → Outcome) (l : List Nat) (h : ∀ i ∈ l, o i = o' i) :
    runAttempts types cid date path o l = runAttempts types cid date path o' l := by
  induction l with
  | nil => rfl
  | cons a rest ih =>
    have ha := h a (List.mem_cons_self a rest)
    have hrest : ∀ i ∈ rest, o i = o' i := fun i hi => h i (List.mem_cons_of_mem a hi)
    simp only [runAttempts, ← ha]
    cases ho : o a with
    | ok jd => simp only [ho]
    | badJson raw =>
      simp only [ho]
      split
      · rfl
      · exact ih hrest
    | exn m =>
      simp only [ho]
      split
      · rfl
      · exact ih hrest

/-! ## Chunking lemmas -/

theorem chunksOf2000_length (l : List Char) :
    (chunksOf2000 l).length = (l.length + 1999) / 2000 := by
  induction l using chunksOf2000.induct with
  | case1 => simp [chunksOf2000]
  | case2 c cs ih =>
    rw [chunksOf2000]
    simp only [List.length_cons, List.length_drop] at ih ⊢
    omega

theorem chunksOf2000_le (l : List Char) :
    (chunksOf2000 l).all (fun c => decide (c.length ≤ 2000)) = true := by
  induction l using chunksOf2000.induct with
  | case1 => simp [chunksOf2000]
  | case2 c cs ih =>
    rw [chunksOf2000]
    simp only [List.all_cons, ih, Bool.and_true, decide_eq_true_eq,
      List.length_take]
    omega

theorem chunksOf2000_flatten (l : List Char) :
    (chunksOf2000 l).flatten = l := by
  induction l using chunksOf2000.induct with
  | case1 => simp [chunksOf2000]
  | case2 c cs ih =>
    rw [chunksOf2000]
    simp only [List.flatten_cons, ih]
    exact List.take_append_drop 2000 (c :: cs)

/-! ## Dedup lemmas -/

theorem dedupeAux_idem (l : List JVal) (seen : List JVal) :
    dedupeAux seen (dedupeAux seen l) = dedupeAux seen l := by
  induction l generalizing seen with
  | nil => rfl
  | cons src rest ih =>
    cases src with
    | obj fs =>
      cases hu : dget fs "url" with
      | none => simp only [dedupeAux, hu]; exact ih seen
      | some url =>
        by_cases hc : (jTruthy url && !(seen.any fun s => beqJVal url s)) = true
        · simp only [dedupeAux, hu, if_pos hc]
          rw [ih]
        · simp only [dedupeAux, hu, if_neg hc]
          exact ih seen
    | null => simp only [dedupeAux]; exact ih seen
    | bool b => simp only [dedupeAux]; exact ih seen
    | num n => simp only [dedupeAux]; exact ih seen
    | str s => simp only [dedupeAux]; exact ih seen
    | arr xs => simp only [dedupeAux]; exact ih seen

/-! ## Lookup lemma for the mapped property list -/

theorem lookup_map_self {β : Type} (schema : List String) (g : String → β)
    (f : String) (h : f ∈ schema) :
    (schema.map (fun field => (field, g field))).lookup f = some (g f) := by
  induction schema with
  | nil => cases h
  | cons a rest ih =>
    by_cases hf : f = a
    · subst hf
      simp [List.lookup]
    · have hmem : f ∈ rest := by
        rcases List.mem_cons.mp h with h' | h'
        · exact absurd h' hf
        · exact h'
      have hb : (f == a) = false := by simp [hf]
      simp [List.lookup, hb, ih hmem]

/-- The retry loop skips an attempt that is not the last one and did not
parse successfully. -/
theorem runAttempts_skip (types : List String) (cid date path : String)
    (o : Nat → Outcome) (a : Nat) (rest : List Nat)
    (hne : a ≠ max_retries - 1) (hfail : ∀ jd, o a ≠ .ok jd) :
    runAttempts types cid date path o (a :: rest) =
      runAttempts types cid date path o rest := by
  cases ho : o a with
  | ok jd => exact absurd ho (hfail jd)
  | badJson raw => simp only [runAttempts, ho]; rw [if_neg hne]
  | exn m => simp only [runAttempts, ho]; rw [if_neg hne]

/-- A field that is absent, Python `None`, or `"N/A"` takes the
missing-value branch of the schema loop. -/
theorem mapField_missing (pd : String → Option String) (pn : String → Option Int)
    (types : List String) (rec : Rec) (f : String)
    (h : pyGet rec f = none ∨ pyGet rec f = some (.str "N/A")) :
    mapField pd pn types rec f = emptyProp f := by
  by_cases hf : f = "CompetitorID"
  · subst hf
    rcases h with h | h <;> simp [mapField, h, pyStr, isNA]
  · rcases h with h | h <;> simp [mapField, h, hf, pyStr, isNA]

/-! ## Claims -/

/-- C1, counterexample: a record successfully persisted by the research
task need not have exactly the `CSV_SCHEMA` key set.  When the model's
parsed output is the empty object, the persisted record (the normalized
object) lacks the schema field `"Competitor Name"`: normalization only
injects the five system fields and never backfills the rest of the
schema. -/
theorem c1_missing_schema_key_counterexample :
    "Competitor Name" ∈ CSV_SCHEMA ∧
    "Competitor Name" ∉ keys (normalize_record [] "id-0" "2025-10-12" []) := by
  constructor
  · simp [CSV_SCHEMA]
  · decide

/-- C1 (amended): every record successfully persisted by
`research_competitor_to_json` is the normalization of the model's parsed
output, and its top-level key set is exactly the parsed output's keys
together with the five injected system fields (`CompetitorID`,
`DateAdded`, `LastUpdated`, `Type`, `Research_Sources`) — it equals the
schema's field list only when the model already supplied the remaining
schema keys and nothing else. -/
theorem c1_persisted_keys (types : List String) (cid date folder name : String)
    (outcomes : Nat → Outcome) (p : String) (written : Rec)
    (h : research_competitor_to_json types cid date folder name outcomes =
      .success p written) :
    ∃ jd, written = normalize_record types cid date jd ∧
      ∀ a, (a ∈ keys written ↔ a ∈ keys jd ∨ a ∈ injectedFields) := by
  obtain ⟨-, jd, hw⟩ :=
    runAttempts_success types cid date (outputFilePath folder name) outcomes
      (List.range max_retries) p written h
  exact ⟨jd, hw, fun a => hw ▸ mem_keys_normalize_record types cid date jd a⟩

/-- Witness for C1's amended theorem at a concrete successful run. -/
theorem c1_persisted_keys_witness :
    ∃ jd, normalize_record ["T1"] "u-1" "2025-10-12" [("Debrief", JVal.str "x")] =
        normalize_record ["T1"] "u-1" "2025-10-12" jd ∧
      ∀ a, (a ∈ keys (normalize_record ["T1"] "u-1" "2025-10-12"
          [("Debrief", JVal.str "x")]) ↔
        a ∈ keys jd ∨ a ∈ injectedFields) :=
  c1_persisted_keys ["T1"] "u-1" "2025-10-12" "out" "Acme"
    (fun _ => .ok [("Debrief", JVal.str "x")]) (outputFilePath "out" "Acme")
    (normalize_record ["T1"] "u-1" "2025-10-12" [("Debrief", JVal.str "x")]) rfl

/-- C2, counterexample: a successful update does not preserve the prior
record's `CompetitorID`.  The persisted record is the model's
`updated_competitor_data` payload (plus `LastUpdated`), so a payload
carrying a different identifier is persisted as-is, regardless of the
prior record's values. -/
theorem c2_identity_not_preserved_counterexample :
    update_single_attempt
        (.obj [("updated_competitor_data", .obj [("CompetitorID", JVal.str "id-new")]),
               ("change_summary", JVal.str "changed")]) "2025-10-12" =
      some ([("CompetitorID", JVal.str "id-new"),
             ("LastUpdated", JVal.str "2025-10-12")], JVal.str "changed") ∧
    dget [("CompetitorID", JVal.str "id-old"), ("DateAdded", JVal.str "2024-01-01")]
      "CompetitorID" = some (JVal.str "id-old") ∧
    "id-new" ≠ "id-old" :=
  ⟨rfl, rfl, by decide⟩

/-- C2 (amended): on every successful update the persisted record's
`LastUpdated` is overwritten to the current date, and every other field
— `CompetitorID` and `DateAdded` included — is taken verbatim from the
model's `updated_competitor_data` payload, not from the prior record:
identifier and creation date are preserved only if the model echoes
them. -/
theorem c2_update_overwrites (parsed : JVal) (today : String) (updated : Rec)
    (cs : JVal)
    (h : update_single_attempt parsed today = some (updated, cs)) :
    dget updated "LastUpdated" = some (.str today) ∧
    ∃ ufields, updated = dset ufields "LastUpdated" (.str today) ∧
      ∀ k, k ≠ "LastUpdated" → dget updated k = dget ufields k := by
  cases parsed with
  | obj fields =>
    rcases hud : pyGet fields "updated_competitor_data" with _ | ud <;>
      rcases hcs : pyGet fields "change_summary" with _ | cs0 <;>
        simp only [update_single_attempt, hud, hcs] at h
    · exact Option.noConfusion h
    · exact Option.noConfusion h
    · exact Option.noConfusion h
    by_cases htr : (jTruthy ud && jTruthy cs0) = true
    · rw [if_pos htr] at h
      cases ud with
      | obj ufields =>
        injection h with h1
        injection h1 with h2 h3
        refine h2 ▸ ⟨dget_dset_self ufields "LastUpdated" (.str today), ufields, rfl,
          fun k hk => dget_dset_ne ufields k "LastUpdated" (.str today) (Ne.symm hk)⟩
      | null => exact Option.noConfusion h
      | bool b => exact Option.noConfusion h
      | num n => exact Option.noConfusion h
      | str s => exact Option.noConfusion h
      | arr xs => exact Option.noConfusion h
    · rw [if_neg htr] at h
      exact Option.noConfusion h
  | null => exact Option.noConfusion h
  | bool b => exact Option.noConfusion h
  | num n => exact Option.noConfusion h
  | str s => exact Option.noConfusion h
  | arr xs => exact Option.noConfusion h

/-- Witness for C2's amended theorem at a concrete successful update. -/
theorem c2_update_overwrites_witness :
    dget [("CompetitorID", JVal.str "id-new"), ("LastUpdated", JVal.str "2025-10-12")]
      "LastUpdated" = some (JVal.str "2025-10-12") ∧
    ∃ ufields, [("CompetitorID", JVal.str "id-new"),
        ("LastUpdated", JVal.str "2025-10-12")] =
        dset ufields "LastUpdated" (JVal.str "2025-10-12") ∧
      ∀ k, k ≠ "LastUpdated" →
        dget [("CompetitorID", JVal.str "id-new"),
          ("LastUpdated", JVal.str "2025-10-12")] k = dget ufields k :=
  c2_update_overwrites
    (.obj [("updated_competitor_data", .obj [("CompetitorID", JVal.str "id-new")]),
           ("change_summary", JVal.str "changed")]) "2025-10-12"
    [("CompetitorID", JVal.str "id-new"), ("LastUpdated", JVal.str "2025-10-12")]
    (JVal.str "changed") rfl

/-- C3, counterexample: the list returned by discovery can contain a
supplied existing name.  The exclusion is only an instruction inside the
prompt; the code returns the model's `new_competitors` list unfiltered,
as the spec's §8 scenario and §9 note themselves acknowledge. -/
theorem c3_no_exclusion_counterexample :
    discover_new_competitors_async ["Acme Corp"]
        (.obj [("new_competitors",
          .arr [JVal.str "Acme Corp", JVal.str "Zeta AI"])]) =
      [JVal.str "Acme Corp", JVal.str "Zeta AI"] ∧
    JVal.str "Acme Corp" ∈ discover_new_competitors_async ["Acme Corp"]
        (.obj [("new_competitors",
          .arr [JVal.str "Acme Corp", JVal.str "Zeta AI"])]) :=
  ⟨rfl, List.mem_cons_self _ _⟩

/-- C3 (amended): `discover_new_competitors_async` returns the model's
`new_competitors` list unchanged (coerced to `[]` when absent or not a
list); in particular the result is independent of the supplied existing
names, which are used only in the prompt text — no code-level exclusion
happens. -/
theorem c3_discovery_passthrough (existing other : List String) (parsed : JVal)
    (xs : List JVal) :
    discover_new_competitors_async existing parsed =
      discover_new_competitors_async other parsed ∧
    discover_new_competitors_async existing
      (.obj [("new_competitors", .arr xs)]) = xs :=
  ⟨rfl, rfl⟩

/-- C4: when exactly one research task fails (returns `None`) and the
others succeed, the scheduler returns the N-1 successful paths — in
task order, each successful path present — and, being a total function
of the task results gathered by `asyncio.gather`, it raises nothing. -/
theorem c4_partial_failure_isolation (competitors_list : List String)
    (outcome : String → Option String)
    (h : (competitors_list.map outcome).countP Option.isNone = 1) :
    (research_competitors_async competitors_list outcome).length =
      competitors_list.length - 1 ∧
    research_competitors_async competitors_list outcome =
      competitors_list.filterMap outcome ∧
    ∀ nm p, nm ∈ competitors_list → outcome nm = some p →
      p ∈ research_competitors_async competitors_list outcome := by
  refine ⟨?_, ?_, ?_⟩
  · rw [research_competitors_async, filterMap_id_length, h, List.length_map]
  · rw [research_competitors_async, List.filterMap_map]
    rfl
  · intro nm p hn hp
    rw [research_competitors_async]
    exact List.mem_filterMap.mpr
      ⟨some p, List.mem_map.mpr ⟨nm, hn, hp⟩, rfl⟩

/-- Witness for C4 at a concrete three-task run with one failure. -/
theorem c4_partial_failure_isolation_witness :
    (research_competitors_async ["A", "B", "C"]
        (fun nm => if nm = "B" then none else some ("out/" ++ nm))).length =
      3 - 1 ∧
    research_competitors_async ["A", "B", "C"]
        (fun nm => if nm = "B" then none else some ("out/" ++ nm)) =
      ["A", "B", "C"].filterMap
        (fun nm => if nm = "B" then none else some ("out/" ++ nm)) ∧
    ∀ nm p, nm ∈ ["A", "B", "C"] →
      (if nm = "B" then none else some ("out/" ++ nm)) = some p →
      p ∈ research_competitors_async ["A", "B", "C"]
        (fun nm => if nm = "B" then none else some ("out/" ++ nm)) := by
  have hc : ((["A", "B", "C"] : List String).map
      (fun nm => if nm = "B" then none else some ("out/" ++ nm))).countP
        Option.isNone = 1 := by decide
  exact c4_partial_failure_isolation ["A", "B", "C"] _ hc

/-- C5: the research task performs at most `max_retries = 3` attempts
(its result depends only on the first three outcomes); when all three
attempts fail, it writes the `.error.txt` diagnostic next to the output
path and returns `None` if the final failure was a parse failure, and
the `.fatal.txt` diagnostic if it was any other error.  The embedding
is a total function, so the task terminates and raises nothing. -/
theorem c5_bounded_retry_and_diagnostics (types : List String)
    (cid date folder nm : String) (o o' : Nat → Outcome) :
    ((∀ i, i < max_retries → o i = o' i) →
      research_competitor_to_json types cid date folder nm o =
        research_competitor_to_json types cid date folder nm o') ∧
    ((∀ i, i < max_retries → ∀ jd, o i ≠ .ok jd) →
      (∀ raw, o 2 = .badJson raw →
        research_competitor_to_json types cid date folder nm o =
          .jsonErrorDump (outputFilePath folder nm ++ ".error.txt") raw) ∧
      (∀ m, o 2 = .exn m →
        research_competitor_to_json types cid date folder nm o =
          .fatalDump (outputFilePath folder nm ++ ".fatal.txt"))) := by
  constructor
  · intro hagree
    exact runAttempts_congr types cid date (outputFilePath folder nm) o o'
      (List.range max_retries) (fun i hi => hagree i (List.mem_range.mp hi))
  · intro hfail
    have hr : List.range max_retries = [0, 1, 2] := rfl
    have e : research_competitor_to_json types cid date folder nm o =
        runAttempts types cid date (outputFilePath folder nm) o [2] := by
      unfold research_competitor_to_json
      rw [hr, runAttempts_skip types cid date _ o 0 _ (by decide)
          (hfail 0 (by decide)),
        runAttempts_skip types cid date _ o 1 _ (by decide)
          (hfail 1 (by decide))]
    refine ⟨fun raw hraw => ?_, fun m hm => ?_⟩
    · rw [e]
      simp only [runAttempts, hraw]
      rw [if_pos (by decide)]
    · rw [e]
      simp only [runAttempts, hm]
      rw [if_pos (by decide)]

/-- Witness for C5 at concrete all-failing runs (all parse failures,
then all transport failures). -/
theorem c5_bounded_retry_and_diagnostics_witness :
    research_competitor_to_json ["T"] "u-1" "2025-10-12" "out" "Acme Corp"
        (fun _ => .badJson "oops") =
      .jsonErrorDump (outputFilePath "out" "Acme Corp" ++ ".error.txt") "oops" ∧
    research_competitor_to_json ["T"] "u-1" "2025-10-12" "out" "Acme Corp"
        (fun _ => .exn "boom") =
      .fatalDump (outputFilePath "out" "Acme Corp" ++ ".fatal.txt") :=
  ⟨((c5_bounded_retry_and_diagnostics ["T"] "u-1" "2025-10-12" "out" "Acme Corp"
      (fun _ => .badJson "oops") (fun _ => .badJson "oops")).2
      (fun _ _ _ h => Outcome.noConfusion h)).1 "oops" rfl,
   ((c5_bounded_retry_and_diagnostics ["T"] "u-1" "2025-10-12" "out" "Acme Corp"
      (fun _ => .exn "boom") (fun _ => .exn "boom")).2
      (fun _ _ _ h => Outcome.noConfusion h)).2 "boom" rfl⟩

/-- C6: any classification value that is not a member of the current
competitor-type list — a stale value, the empty string, `null`, or an
absent field all make `typeOk` false — is replaced by the `"N/A"`
sentinel during normalization; the embedding is a total function, so no
input raises. -/
theorem c6_enum_safety (types : List String) (cid date : String) (jd : Rec)
    (h : typeOk types (dget jd "Type") = false) :
    dget (normalize_record types cid date jd) "Type" = some (.str "N/A") :=
  dget_normalize_record_Type types cid date jd h

/-- Witness for C6 at a concrete stale classification value. -/
theorem c6_enum_safety_witness :
    typeOk ["Type A", "Type B"] (dget [("Type", JVal.str "Stale Type")] "Type") =
      false ∧
    dget (normalize_record ["Type A", "Type B"] "u-1" "2025-10-12"
      [("Type", JVal.str "Stale Type")]) "Type" = some (.str "N/A") :=
  ⟨rfl, c6_enum_safety ["Type A", "Type B"] "u-1" "2025-10-12"
    [("Type", JVal.str "Stale Type")] rfl⟩

/-- C7: the 2000-character slicing loop of
`map_data_to_notion_properties` (the chunking used for rich-text
payloads, embedded as `chunksOf2000` and consumed by `textChunks` /
`mapField`) produces exactly `⌈L/2000⌉` ordered chunks, each of length
at most 2000, whose in-order concatenation is the original text. -/
theorem c7_chunking_correct (content : List Char) :
    (chunksOf2000 content).length = (content.length + 2000 - 1) / 2000 ∧
    (chunksOf2000 content).all (fun c => decide (c.length ≤ 2000)) = true ∧
    (chunksOf2000 content).flatten = content := by
  refine ⟨?_, chunksOf2000_le content, chunksOf2000_flatten content⟩
  rw [chunksOf2000_length]
  omega

/-- C8: whenever the research task returns success, the written record
carries the identifier generated at call entry (`uuid.uuid4()`) and the
current date in both `DateAdded` and `LastUpdated`, regardless of any
values the model supplied for those three fields. -/
theorem c8_system_fields_overwritten (types : List String)
    (cid date folder nm : String) (outcomes : Nat → Outcome)
    (p : String) (written : Rec)
    (h : research_competitor_to_json types cid date folder nm outcomes =
      .success p written) :
    dget written "CompetitorID" = some (.str cid) ∧
    dget written "DateAdded" = some (.str date) ∧
    dget written "LastUpdated" = some (.str date) := by
  obtain ⟨-, jd, hw⟩ :=
    runAttempts_success types cid date (outputFilePath folder nm) outcomes
      (List.range max_retries) p written h
  rw [hw]
  exact dget_normalize_record_system types cid date jd

/-- Witness for C8 at a run whose model output carries conflicting
values for all three system fields. -/
theorem c8_system_fields_overwritten_witness :
    dget (normalize_record ["T"] "fresh-id" "2025-10-12"
        [("CompetitorID", JVal.str "model-id"), ("DateAdded", JVal.str "1999-01-01"),
         ("LastUpdated", JVal.str "1999-01-01")]) "CompetitorID" =
      some (JVal.str "fresh-id") ∧
    dget (normalize_record ["T"] "fresh-id" "2025-10-12"
        [("CompetitorID", JVal.str "model-id"), ("DateAdded", JVal.str "1999-01-01"),
         ("LastUpdated", JVal.str "1999-01-01")]) "DateAdded" =
      some (JVal.str "2025-10-12") ∧
    dget (normalize_record ["T"] "fresh-id" "2025-10-12"
        [("CompetitorID", JVal.str "model-id"), ("DateAdded", JVal.str "1999-01-01"),
         ("LastUpdated", JVal.str "1999-01-01")]) "LastUpdated" =
      some (JVal.str "2025-10-12") :=
  c8_system_fields_overwritten ["T"] "fresh-id" "2025-10-12" "out" "Acme"
    (fun _ => .ok [("CompetitorID", JVal.str "model-id"),
      ("DateAdded", JVal.str "1999-01-01"), ("LastUpdated", JVal.str "1999-01-01")])
    (outputFilePath "out" "Acme")
    (normalize_record ["T"] "fresh-id" "2025-10-12"
      [("CompetitorID", JVal.str "model-id"), ("DateAdded", JVal.str "1999-01-01"),
       ("LastUpdated", JVal.str "1999-01-01")]) rfl

/-- C9: `dedupe_sources_preserve_order` is idempotent — re-deduplicating
an already-deduplicated source list returns it unchanged. -/
theorem c9_dedupe_idempotent (sources : List JVal) :
    dedupe_sources_preserve_order (dedupe_sources_preserve_order sources) =
      dedupe_sources_preserve_order sources :=
  dedupeAux_idem sources []

/-- C10, counterexample: a record missing the title field is not mapped
to an empty/None wrapper of the title type — the code substitutes the
placeholder title "Untitled Competitor" (utils.py line 268), which
carries content. -/
theorem c10_title_placeholder_counterexample :
    pyGet [] TITLE_FIELD_NAME = none ∧
    (map_data_to_notion_properties (fun _ => none) (fun _ => none)
        [TITLE_FIELD_NAME] [] []).lookup TITLE_FIELD_NAME =
      some (.title "Untitled Competitor") ∧
    isEmptyWrapper (.title "Untitled Competitor") = false :=
  ⟨rfl, rfl, rfl⟩

/-- C10 (amended): for every input record,
`map_data_to_notion_properties` is total (returns without raising) and
yields one typed value wrapper per schema field, the key list being
exactly the schema; a missing, `null`, or `"N/A"` value yields the
empty/None wrapper of the field's type, except the title field, which
receives the placeholder title "Untitled Competitor". -/
theorem c10_mapping_schema_shaped (pd : String → Option String)
    (pn : String → Option Int) (schema types : List String) (rec : Rec) :
    (map_data_to_notion_properties pd pn schema types rec).map Prod.fst = schema ∧
    ∀ f, f ∈ schema →
      (pyGet rec f = none ∨ pyGet rec f = some (.str "N/A")) →
      (map_data_to_notion_properties pd pn schema types rec).lookup f =
        some (emptyProp f) ∧
      (f ≠ TITLE_FIELD_NAME → isEmptyWrapper (emptyProp f) = true) ∧
      (f = TITLE_FIELD_NAME → emptyProp f = .title "Untitled Competitor") := by
  constructor
  · rw [map_data_to_notion_properties, List.map_map]
    exact List.map_id schema
  · intro f hf hmiss
    refine ⟨?_, ?_, ?_⟩
    · rw [map_data_to_notion_properties,
        lookup_map_self schema _ f hf,
        mapField_missing pd pn types rec f hmiss]
    · intro hne
      unfold emptyProp
      rw [if_neg hne]
      repeat' split
      all_goals rfl
    · intro heq
      unfold emptyProp
      rw [if_pos heq]

/-- Witness for C10's amended theorem at a concrete record missing a
non-title field. -/
theorem c10_mapping_schema_shaped_witness :
    (map_data_to_notion_properties (fun _ => none) (fun _ => none)
        ["Competitor Name", "WebsiteURL"] [] []).lookup "WebsiteURL" =
      some (emptyProp "WebsiteURL") ∧
    isEmptyWrapper (emptyProp "WebsiteURL") = true :=
  have h := (c10_mapping_schema_shaped (fun _ => none) (fun _ => none)
    ["Competitor Name", "WebsiteURL"] [] []).2 "WebsiteURL"
    (by simp) (Or.inl rfl)
  ⟨h.1, h.2.1 (by decide)⟩

end CompeteAutomate
